import Mathlib

/-!
# vol-pulse: verification of the volatility signal pipeline

A shallow embedding of the core computations of the `vol_pulse` package
(volatility analyzer, opportunity scanner, risk engine, Deribit REST client
retry/fan-out logic, and the monitor-loop decision step), with theorems
settling the specification claims about them.

Python floats are modelled as exact rationals (`ℚ`); the one genuinely
irrational operation (`var ** 0.5` in the skew z-score) is handled through a
real-valued bridge lemma.
-/

namespace VolPulse

/-! ## volatility_analyzer.py -/

/-- `np.searchsorted(sorted_history, c, side="left")`: on a sorted array this
is the number of elements strictly less than `c`.  Counting is
order-independent, so sorting followed by binary search is embedded as a
count over the unsorted history. -/
def searchsortedLeft (hist : List ℚ) (c : ℚ) : ℕ :=
  (hist.filter (fun x => x < c)).length

/-- `np.searchsorted(sorted_history, c, side="right")`: the number of
elements less than or equal to `c`. -/
def searchsortedRight (hist : List ℚ) (c : ℚ) : ℕ :=
  (hist.filter (fun x => x ≤ c)).length

/-- The mid-rank computation inside `VolatilityAnalyzer._compute_ivp`:
`rank = right` when `right == left`, else `(left + 1 + right) / 2.0`. -/
def ivpRank (hist : List ℚ) (c : ℚ) : ℚ :=
  let left := searchsortedLeft hist c
  let right := searchsortedRight hist c
  if right = left then (right : ℚ) else ((left : ℚ) + 1 + right) / 2

/-- `VolatilityAnalyzer._compute_ivp`: `None` when the history is empty,
otherwise `rank / n * 100.0`.  (The `current_dvol is None` guard is modelled
by taking the current value as a required argument.) -/
def computeIVP (hist : List ℚ) (c : ℚ) : Option ℚ :=
  if hist.isEmpty then none
  else some (ivpRank hist c / (hist.length : ℚ) * 100)

/-- `VolatilityAnalyzer._compute_ivr`: `None` on empty history; `0.0` when
`max == min`; otherwise `(c - min) / (max - min) * 100` clamped to
`[0, 100]`. -/
def computeIVR (hist : List ℚ) (c : ℚ) : Option ℚ :=
  match hist with
  | [] => none
  | h :: t =>
    let dvolMin := t.foldl min h
    let dvolMax := t.foldl max h
    if dvolMax = dvolMin then some 0
    else some (min (max ((c - dvolMin) / (dvolMax - dvolMin) * 100) 0) 100)

end VolPulse

namespace VolPulse

/-! ### Basic facts about the searchsorted counts -/

theorem searchsortedLeft_le_right (hist : List ℚ) (c : ℚ) :
    searchsortedLeft hist c ≤ searchsortedRight hist c := by
  unfold searchsortedLeft searchsortedRight
  induction hist with
  | nil => simp
  | cons h t ih =>
    by_cases hlt : h < c
    · simp [List.filter_cons, hlt, le_of_lt hlt]
      omega
    · by_cases hle : h ≤ c
      · simp [List.filter_cons, hlt, hle]
        omega
      · simp [List.filter_cons, hlt, hle, ih]

theorem searchsortedRight_le_left_of_lt (hist : List ℚ) {c c' : ℚ}
    (hcc : c < c') : searchsortedRight hist c ≤ searchsortedLeft hist c' := by
  unfold searchsortedLeft searchsortedRight
  induction hist with
  | nil => simp
  | cons h t ih =>
    by_cases hle : h ≤ c
    · have : h < c' := lt_of_le_of_lt hle hcc
      simp [List.filter_cons, hle, this]
      omega
    · by_cases hlt : h < c'
      · simp [List.filter_cons, hle, hlt]
        omega
      · simp [List.filter_cons, hle, hlt, ih]

theorem searchsortedLeft_le_length (hist : List ℚ) (c : ℚ) :
    searchsortedLeft hist c ≤ hist.length :=
  List.length_filter_le _ _

theorem searchsortedRight_le_length (hist : List ℚ) (c : ℚ) :
    searchsortedRight hist c ≤ hist.length :=
  List.length_filter_le _ _

/-- The mid-rank lies between the two counts. -/
theorem ivpRank_bounds (hist : List ℚ) (c : ℚ) :
    (searchsortedLeft hist c : ℚ) ≤ ivpRank hist c ∧
      ivpRank hist c ≤ (searchsortedRight hist c : ℚ) := by
  have hlr := searchsortedLeft_le_right hist c
  unfold ivpRank
  by_cases h : searchsortedRight hist c = searchsortedLeft hist c
  · rw [if_pos h, h]
    exact ⟨le_refl _, le_refl _⟩
  · rw [if_neg h]
    have hlt : searchsortedLeft hist c < searchsortedRight hist c :=
      lt_of_le_of_ne hlr (fun e => h e.symm)
    have h1 : (searchsortedLeft hist c : ℚ) + 1 ≤ (searchsortedRight hist c : ℚ) := by
      exact_mod_cast hlt
    constructor <;> linarith

end VolPulse

namespace VolPulse

/-! ### Folded minimum / maximum (Python `min(list)` / `max(list)`) -/

theorem foldl_min_mem (h : ℚ) (t : List ℚ) : t.foldl min h ∈ h :: t := by
  induction t generalizing h with
  | nil => simp
  | cons a t ih =>
    simp only [List.foldl_cons]
    rcases List.mem_cons.mp (ih (min h a)) with hm | hm
    · rcases min_cases h a with ⟨he, _⟩ | ⟨he, _⟩
      · exact List.mem_cons.mpr (Or.inl (hm.trans he))
      · exact List.mem_cons.mpr (Or.inr (List.mem_cons.mpr (Or.inl (hm.trans he))))
    · exact List.mem_cons.mpr (Or.inr (List.mem_cons.mpr (Or.inr hm)))

theorem foldl_min_le (h : ℚ) (t : List ℚ) :
    ∀ x ∈ h :: t, t.foldl min h ≤ x := by
  induction t generalizing h with
  | nil => intro x hx; simp at hx; simp [hx]
  | cons a t ih =>
    intro x hx
    simp only [List.foldl_cons]
    have hfold : t.foldl min (min h a) ≤ min h a :=
      ih (min h a) _ (List.mem_cons_self _ _)
    rcases List.mem_cons.mp hx with he | hx'
    · subst he; exact hfold.trans (min_le_left _ _)
    · rcases List.mem_cons.mp hx' with he | hx''
      · subst he; exact hfold.trans (min_le_right _ _)
      · exact ih (min h a) x (List.mem_cons_of_mem _ hx'')

theorem foldl_max_mem (h : ℚ) (t : List ℚ) : t.foldl max h ∈ h :: t := by
  induction t generalizing h with
  | nil => simp
  | cons a t ih =>
    simp only [List.foldl_cons]
    rcases List.mem_cons.mp (ih (max h a)) with hm | hm
    · rcases max_cases h a with ⟨he, _⟩ | ⟨he, _⟩
      · exact List.mem_cons.mpr (Or.inl (hm.trans he))
      · exact List.mem_cons.mpr (Or.inr (List.mem_cons.mpr (Or.inl (hm.trans he))))
    · exact List.mem_cons.mpr (Or.inr (List.mem_cons.mpr (Or.inr hm)))

theorem le_foldl_max (h : ℚ) (t : List ℚ) :
    ∀ x ∈ h :: t, x ≤ t.foldl max h := by
  induction t generalizing h with
  | nil => intro x hx; simp at hx; simp [hx]
  | cons a t ih =>
    intro x hx
    simp only [List.foldl_cons]
    have hfold : max h a ≤ t.foldl max (max h a) :=
      ih (max h a) _ (List.mem_cons_self _ _)
    rcases List.mem_cons.mp hx with he | hx'
    · subst he; exact (le_max_left _ _).trans hfold
    · rcases List.mem_cons.mp hx' with he | hx''
      · subst he; exact (le_max_right _ _).trans hfold
      · exact ih (max h a) x (List.mem_cons_of_mem _ hx'')

end VolPulse

namespace VolPulse

/-- **C1.** For every non-empty history and current value, the percentile rank
(IVP) computed by `VolatilityAnalyzer.compute_metrics` follows the mid-rank
rule: with `left` the count of history values strictly less than the current
value and `right` the count of values at most it, `rank = right` when
`left = right`, otherwise `rank = (left + 1 + right) / 2`, and the percentile
is `rank / n * 100`; for history `[10,20,20,30]` and current `20` the result
is `62.5`. -/
theorem compute_ivp_midrank (hist : List ℚ) (c : ℚ) (hne : hist ≠ []) :
    computeIVP hist c =
      some ((if hist.countP (fun x => x < c) = hist.countP (fun x => x ≤ c)
            then (hist.countP (fun x => x ≤ c) : ℚ)
            else ((hist.countP (fun x => x < c) : ℚ) + 1 +
                  (hist.countP (fun x => x ≤ c) : ℚ)) / 2)
          / (hist.length : ℚ) * 100) ∧
    computeIVP [10, 20, 20, 30] 20 = some (125 / 2) := by
  constructor
  · have hni : hist.isEmpty = false := by
      simpa [List.isEmpty_iff] using hne
    have hrank : ivpRank hist c =
        (if hist.countP (fun x => x < c) = hist.countP (fun x => x ≤ c)
         then (hist.countP (fun x => x ≤ c) : ℚ)
         else ((hist.countP (fun x => x < c) : ℚ) + 1 +
               (hist.countP (fun x => x ≤ c) : ℚ)) / 2) := by
      unfold ivpRank searchsortedLeft searchsortedRight
      simp only [List.countP_eq_length_filter]
      by_cases hc : (List.filter (fun x => decide (x < c)) hist).length =
          (List.filter (fun x => decide (x ≤ c)) hist).length
      · rw [if_pos hc.symm, if_pos hc]
      · rw [if_neg (fun e => hc e.symm), if_neg hc]
    simp only [computeIVP, hni, Bool.false_eq_true, if_false, hrank]
  · norm_num [computeIVP, ivpRank, searchsortedLeft, searchsortedRight,
      List.filter]

/-- Witness for C1 at history `[10,20,20,30]`, current value `20`. -/
theorem compute_ivp_midrank_witness :
    computeIVP [10, 20, 20, 30] 20 = some (125 / 2) :=
  (compute_ivp_midrank [10, 20, 20, 30] 20 (List.cons_ne_nil _ _)).2

end VolPulse

namespace VolPulse

/-- **C4.** For every non-empty history and current value, the range rank
(IVR) equals `(current - min) / (max - min) * 100` clamped to `[0,100]`, and
equals exactly `0` whenever `max = min`; for history `[10,20,30,40,50]` and
current `40` the result is `75`.  The minimum and maximum are characterized
by membership plus the usual bound properties. -/
theorem compute_ivr_range_rank (hist : List ℚ) (c mn mx : ℚ)
    (hmn : mn ∈ hist) (hmnle : ∀ x ∈ hist, mn ≤ x)
    (hmx : mx ∈ hist) (hlemx : ∀ x ∈ hist, x ≤ mx) :
    (mx = mn → computeIVR hist c = some 0) ∧
    (mx ≠ mn → computeIVR hist c =
      some (min (max ((c - mn) / (mx - mn) * 100) 0) 100)) ∧
    computeIVR [10, 20, 30, 40, 50] 40 = some 75 := by
  refine ⟨?_, ?_, ?_⟩
  · intro heq
    cases hist with
    | nil => cases hmn
    | cons h t =>
      have hmin_eq : t.foldl min h = mn :=
        le_antisymm (foldl_min_le h t mn hmn) (hmnle _ (foldl_min_mem h t))
      have hmax_eq : t.foldl max h = mx :=
        le_antisymm (hlemx _ (foldl_max_mem h t)) (le_foldl_max h t mx hmx)
      simp [computeIVR, hmin_eq, hmax_eq, heq]
  · intro hne
    cases hist with
    | nil => cases hmn
    | cons h t =>
      have hmin_eq : t.foldl min h = mn :=
        le_antisymm (foldl_min_le h t mn hmn) (hmnle _ (foldl_min_mem h t))
      have hmax_eq : t.foldl max h = mx :=
        le_antisymm (hlemx _ (foldl_max_mem h t)) (le_foldl_max h t mx hmx)
      simp only [computeIVR, hmin_eq, hmax_eq, if_neg hne]
  · norm_num [computeIVR, min_def, max_def]

/-- Witness for C4 at history `[10,20,30,40,50]`, current value `40`,
minimum `10`, maximum `50`. -/
theorem compute_ivr_range_rank_witness :
    computeIVR [10, 20, 30, 40, 50] 40 = some 75 :=
  (compute_ivr_range_rank [10, 20, 30, 40, 50] 40 10 50
    (by norm_num)
    (by intro x hx; simp at hx
        rcases hx with rfl | rfl | rfl | rfl | rfl <;> norm_num)
    (by norm_num)
    (by intro x hx; simp at hx
        rcases hx with rfl | rfl | rfl | rfl | rfl <;> norm_num)).2.2

end VolPulse

namespace VolPulse

/-- The mid-rank is monotone non-decreasing in the current value. -/
theorem ivpRank_monotone (hist : List ℚ) {c c' : ℚ} (hcc : c ≤ c') :
    ivpRank hist c ≤ ivpRank hist c' := by
  rcases eq_or_lt_of_le hcc with rfl | hlt
  · exact le_refl _
  · calc ivpRank hist c ≤ (searchsortedRight hist c : ℚ) :=
          (ivpRank_bounds hist c).2
      _ ≤ (searchsortedLeft hist c' : ℚ) := by
          exact_mod_cast searchsortedRight_le_left_of_lt hist hlt
      _ ≤ ivpRank hist c' := (ivpRank_bounds hist c').1

/-- **C9.** For a fixed non-empty history, the percentile rank is monotone
non-decreasing in the current value, equals `100` when the current value
exceeds every history value, and equals `0` when it is below every history
value. -/
theorem compute_ivp_monotone_extremes (hist : List ℚ) (hne : hist ≠ []) :
    (∀ c c' p q, c ≤ c' → computeIVP hist c = some p →
        computeIVP hist c' = some q → p ≤ q) ∧
    (∀ c, (∀ x ∈ hist, x < c) → computeIVP hist c = some 100) ∧
    (∀ c, (∀ x ∈ hist, c < x) → computeIVP hist c = some 0) := by
  have hni : hist.isEmpty = false := by
    simpa [List.isEmpty_iff] using hne
  have hn : (0 : ℚ) < (hist.length : ℚ) := by
    have : hist.length ≠ 0 := fun h0 => hne (List.length_eq_zero.mp h0)
    exact_mod_cast Nat.pos_of_ne_zero this
  refine ⟨?_, ?_, ?_⟩
  · intro c c' p q hcc hp hq
    simp only [computeIVP, hni, Bool.false_eq_true, if_false,
      Option.some.injEq] at hp hq
    rw [← hp, ← hq]
    have := ivpRank_monotone hist hcc
    gcongr
  · intro c hall
    have hl : searchsortedRight hist c = hist.length := by
      unfold searchsortedRight
      rw [List.filter_eq_self.mpr]
      intro x hx
      exact decide_eq_true (le_of_lt (hall x hx))
    have hr : searchsortedLeft hist c = hist.length := by
      unfold searchsortedLeft
      rw [List.filter_eq_self.mpr]
      intro x hx
      exact decide_eq_true (hall x hx)
    have hrank : ivpRank hist c = (hist.length : ℚ) := by
      unfold ivpRank
      rw [hl, hr, if_pos rfl]
    simp only [computeIVP, hni, Bool.false_eq_true, if_false, hrank,
      Option.some.injEq]
    field_simp
  · intro c hall
    have hl : searchsortedRight hist c = 0 := by
      unfold searchsortedRight
      rw [List.length_eq_zero]
      rw [List.filter_eq_nil_iff]
      intro x hx
      simpa using not_le_of_lt (hall x hx)
    have hr : searchsortedLeft hist c = 0 := by
      unfold searchsortedLeft
      rw [List.length_eq_zero]
      rw [List.filter_eq_nil_iff]
      intro x hx
      simpa using (hall x hx).asymm
    have hrank : ivpRank hist c = 0 := by
      unfold ivpRank
      rw [hl, hr, if_pos rfl]
      simp
    simp [computeIVP, hni, hrank]

/-- Witness for C9 at history `[1, 2]`: percentile `100` above the history,
`0` below it, and monotone between `0` and `3`. -/
theorem compute_ivp_monotone_extremes_witness :
    computeIVP [1, 2] 3 = some 100 ∧ computeIVP [1, 2] 0 = some 0 :=
  ⟨(compute_ivp_monotone_extremes [1, 2] (List.cons_ne_nil _ _)).2.1 3
      (by intro x hx; simp at hx; rcases hx with rfl | rfl <;> norm_num),
   (compute_ivp_monotone_extremes [1, 2] (List.cons_ne_nil _ _)).2.2 0
      (by intro x hx; simp at hx; rcases hx with rfl | rfl <;> norm_num)⟩

end VolPulse

namespace VolPulse

/-! ## risk_engine.py -/

/-- `RiskLimits` dataclass. -/
structure RiskLimits where
  max_single_btc : ℚ
  max_total_btc : ℚ

/-- `RiskEngine.max_contracts_allowed`:
`remaining_total = max(max_total - open, 0)`;
result `= max(min(max_single, remaining_total), 0)`. -/
def max_contracts_allowed (limits : RiskLimits) (open_contracts_btc : ℚ) : ℚ :=
  let remaining_total := max (limits.max_total_btc - open_contracts_btc) 0
  max (min limits.max_single_btc remaining_total) 0

/-- `RiskEngine._maintenance_margin`: risk component plus premium, scaled by
implied vol: `intrinsic_buffer = max(strike - spot, 0) / spot`;
`risk_factor = 0.12 + 0.4 * iv + intrinsic_buffer`;
`(spot * risk_factor + premium * spot) * contracts`. -/
def maintenance_margin (spot_price strike premium_btc iv contracts_btc : ℚ) : ℚ :=
  let intrinsic_buffer := max (strike - spot_price) 0 / spot_price
  let risk_factor := 12 / 100 + 2 / 5 * iv + intrinsic_buffer
  (spot_price * risk_factor + premium_btc * spot_price) * contracts_btc

/-- `RiskReport` dataclass. -/
structure RiskReport where
  max_contracts : ℚ
  est_margin_base : ℚ
  est_margin_shock : ℚ
  est_drawdown_usd : ℚ

/-- `RiskEngine.estimate_margin_and_drawdown`: base margin at the quoted
implied vol, shocked margin at `iv * 1.2`, drawdown capped by the account
balance. -/
def estimate_margin_and_drawdown (account_balance : ℚ)
    (spot_price strike premium_btc iv contracts_btc : ℚ) : RiskReport :=
  let premium_usd := premium_btc * spot_price * contracts_btc
  let base_margin := maintenance_margin spot_price strike premium_btc iv contracts_btc
  let shock_iv := iv * (6 / 5)
  let shock_margin := maintenance_margin spot_price strike premium_btc shock_iv contracts_btc
  let est_drawdown := min (base_margin - premium_usd) account_balance
  { max_contracts := contracts_btc
    est_margin_base := base_margin
    est_margin_shock := shock_margin
    est_drawdown_usd := est_drawdown }

/-- **C8.** For every open position size (with a non-negative single-position
limit), `max_contracts_allowed` equals
`clamp(min(max_single, max_total - open_size), 0, max_single)`; with limits
`max_single = 0.10`, `max_total = 0.20`, open size `0.05` gives `0.10` and
open size `0.15` gives `0.05`. -/
theorem max_contracts_allowed_clamp (limits : RiskLimits)
    (hs : 0 ≤ limits.max_single_btc) :
    (∀ open_size : ℚ, max_contracts_allowed limits open_size =
      min (max (min limits.max_single_btc
        (limits.max_total_btc - open_size)) 0) limits.max_single_btc) ∧
    max_contracts_allowed ⟨1/10, 1/5⟩ (1/20) = 1/10 ∧
    max_contracts_allowed ⟨1/10, 1/5⟩ (3/20) = 1/20 := by
  refine ⟨?_, ?_, ?_⟩
  · intro o
    unfold max_contracts_allowed
    simp only [min_def, max_def]
    split_ifs <;> linarith
  · norm_num [max_contracts_allowed, min_def, max_def]
  · norm_num [max_contracts_allowed, min_def, max_def]

/-- Witness for C8 at limits `(0.10, 0.20)` and open sizes `0.05`, `0.15`. -/
theorem max_contracts_allowed_clamp_witness :
    max_contracts_allowed ⟨1/10, 1/5⟩ (1/20) = 1/10 ∧
    max_contracts_allowed ⟨1/10, 1/5⟩ (3/20) = 1/20 :=
  ⟨(max_contracts_allowed_clamp ⟨1/10, 1/5⟩ (by norm_num)).2.1,
   (max_contracts_allowed_clamp ⟨1/10, 1/5⟩ (by norm_num)).2.2⟩

/-- **C10.** For every input with positive spot price, non-negative premium,
implied vol and contract size, the shocked margin returned by
`estimate_margin_and_drawdown` is at least the base margin: the `1.2×`
vol-shock recomputation never decreases the margin estimate. -/
theorem shock_margin_ge_base (account_balance spot strike premium iv contracts : ℚ)
    (hspot : 0 < spot) (hprem : 0 ≤ premium) (hiv : 0 ≤ iv) (hc : 0 ≤ contracts) :
    (estimate_margin_and_drawdown account_balance spot strike premium iv
        contracts).est_margin_base ≤
      (estimate_margin_and_drawdown account_balance spot strike premium iv
        contracts).est_margin_shock := by
  unfold estimate_margin_and_drawdown maintenance_margin
  simp only
  have hstep : 12 / 100 + 2 / 5 * iv + max (strike - spot) 0 / spot ≤
      12 / 100 + 2 / 5 * (iv * (6 / 5)) + max (strike - spot) 0 / spot := by
    nlinarith
  have hsp : (0 : ℚ) ≤ spot := le_of_lt hspot
  nlinarith [mul_le_mul_of_nonneg_left hstep hsp,
    mul_le_mul_of_nonneg_right
      (add_le_add_right (mul_le_mul_of_nonneg_left hstep hsp) (premium * spot)) hc]

/-- Witness for C10 at balance `22000`, spot `60000`, strike `55000`,
premium `0.013`, iv `0.6`, contracts `0.1`. -/
theorem shock_margin_ge_base_witness :
    (estimate_margin_and_drawdown 22000 60000 55000 (13/1000) (3/5)
        (1/10)).est_margin_base ≤
      (estimate_margin_and_drawdown 22000 60000 55000 (13/1000) (3/5)
        (1/10)).est_margin_shock :=
  shock_margin_ge_base 22000 60000 55000 (13/1000) (3/5) (1/10)
    (by norm_num) (by norm_num) (by norm_num) (by norm_num)

end VolPulse

namespace VolPulse

/-! ## main.py: per-cycle signal decision in `run_monitor` -/

/-- `constants.ENTRY_PRICE_DROP_1H = -0.025`. -/
def ENTRY_PRICE_DROP_1H : ℚ := -(25 / 1000)

/-- `constants.MIN_DVOL_PULSE = 0.05`. -/
def MIN_DVOL_PULSE : ℚ := 5 / 100

/-- `constants.ENTRY_IVP_THRESHOLD = 70.0`. -/
def ENTRY_IVP_THRESHOLD : ℚ := 70

/-- `constants.ENTRY_IVR_THRESHOLD = 50.0`. -/
def ENTRY_IVR_THRESHOLD : ℚ := 50

/-- `constants.SLOW_BLEED_PRICE_DROP_1H = -0.02`. -/
def SLOW_BLEED_PRICE_DROP_1H : ℚ := -(2 / 100)

/-- `constants.SLOW_BLEED_DVOL_MAX_1H = 0.0`. -/
def SLOW_BLEED_DVOL_MAX_1H : ℚ := 0

/-- What one monitor cycle decides after the signal checks in `run_monitor`:
whether the slow-bleed alert is emitted and whether `scanner.scan` is
invoked. -/
structure CycleDecision where
  slowBleedAlert : Bool
  scannerInvoked : Bool
deriving DecidableEq

/-- The `entry_signal` / `slow_bleed` evaluation and the two guarded actions
of a `run_monitor` cycle.  `metrics.ivp or 0` in Python maps `None` to `0`
(a stored `0.0` is also falsy, but `or` then yields the same `0`), which is
`Option.getD 0` here.  The alert is sent exactly when `slow_bleed` holds, and
the scanner runs exactly under `entry_signal and not slow_bleed`. -/
def cycleDecision (priceChange1h dvolChange1h ivp ivr : Option ℚ) :
    CycleDecision :=
  let entry_signal :=
    match priceChange1h, dvolChange1h with
    | some pc, some dc =>
        decide (pc ≤ ENTRY_PRICE_DROP_1H) && decide (MIN_DVOL_PULSE ≤ dc) &&
        (decide (ENTRY_IVP_THRESHOLD < ivp.getD 0) ||
         decide (ENTRY_IVR_THRESHOLD < ivr.getD 0))
    | _, _ => false
  let slow_bleed :=
    match priceChange1h, dvolChange1h with
    | some pc, some dc =>
        decide (pc ≤ SLOW_BLEED_PRICE_DROP_1H) &&
        decide (dc ≤ SLOW_BLEED_DVOL_MAX_1H)
    | _, _ => false
  { slowBleedAlert := slow_bleed
    scannerInvoked := entry_signal && !slow_bleed }

/-- **C7.** In every monitor cycle in which the slow-bleed rule (1-hour price
change ≤ −2% and 1-hour volatility-index change ≤ 0) holds, the loop emits
the slow-bleed alert and never invokes the opportunity scanner that cycle,
whatever the entry rule evaluates to. -/
theorem slow_bleed_suppresses_scan (pc dc : ℚ) (ivp ivr : Option ℚ)
    (hpc : pc ≤ -(2 / 100)) (hdc : dc ≤ 0) :
    (cycleDecision (some pc) (some dc) ivp ivr).slowBleedAlert = true ∧
    (cycleDecision (some pc) (some dc) ivp ivr).scannerInvoked = false := by
  simp [cycleDecision, SLOW_BLEED_PRICE_DROP_1H, SLOW_BLEED_DVOL_MAX_1H,
    hpc, hdc]

/-- Witness for C7 at price change `−3%`, DVOL change `−1%`, IVP `80`
(so the entry rule's IV condition holds too). -/
theorem slow_bleed_suppresses_scan_witness :
    (cycleDecision (some (-(3/100))) (some (-(1/100))) (some 80)
        none).slowBleedAlert = true ∧
    (cycleDecision (some (-(3/100))) (some (-(1/100))) (some 80)
        none).scannerInvoked = false :=
  slow_bleed_suppresses_scan (-(3/100)) (-(1/100)) (some 80) none
    (by norm_num) (by norm_num)

end VolPulse

namespace VolPulse

/-! ## opportunity_scanner.py -/

/-- One entry of the quote list fed to `OpportunityScanner.scan` (the dict
built by `DeribitRESTClient._fetch_tickers`).  `delta` and `mark_iv` may be
missing (`None`); the remaining numeric fields default to `0.0` in the code
and are modelled as plain rationals. -/
structure OptionQuote where
  instrument_name : String
  option_type : String
  delta : Option ℚ
  mark_iv : Option ℚ
  expiration_timestamp : ℚ
  bid : ℚ
  ask : ℚ
  strike : ℚ
deriving DecidableEq

/-- `OpportunityScanner._mid_price`: the bid/ask average when both are
positive, otherwise the larger of the two. -/
def mid_price (bid ask : ℚ) : ℚ :=
  if 0 < bid ∧ 0 < ask then (bid + ask) / 2 else max bid ask

/-- `OptionCandidate` dataclass. -/
structure OptionCandidate where
  instrument_name : String
  strike : ℚ
  expiration_ts : ℚ
  delta : ℚ
  mark_iv : ℚ
  bid : ℚ
  ask : ℚ
  dte_days : ℚ
  premium_btc : ℚ
  annualized_yield : ℚ
  safety_margin : ℚ
  vrp : ℚ
deriving DecidableEq

/-- The `OpportunityScanner.__init__` configuration: `target_delta` band and
`dte_range_days` window. -/
structure ScannerConfig where
  delta_min : ℚ
  delta_max : ℚ
  dte_min : ℚ
  dte_max : ℚ

/-- The defaults wired in `main.py` from `constants.TARGET_DELTA = (0.15,
0.20)` and `constants.OPTION_DTE_RANGE_DAYS = (14, 30)`. -/
def defaultScannerConfig : ScannerConfig :=
  { delta_min := 15 / 100, delta_max := 20 / 100, dte_min := 14, dte_max := 30 }

/-- One iteration of the `for opt in options` loop in
`OpportunityScanner.scan`: `none` when any `continue` fires, otherwise the
constructed candidate.  A `continue` on `option_type != "put"` is embedded as
the positive guard `option_type = "put"`. -/
def scanStep (cfg : ScannerConfig) (spot_price realized_vol_24h now_ts : ℚ)
    (opt : OptionQuote) : Option OptionCandidate :=
  if opt.option_type = "put" then
    match opt.delta, opt.mark_iv with
    | some delta, some mark_iv =>
      if cfg.delta_min ≤ |delta| ∧ |delta| ≤ cfg.delta_max then
        let exp_ts := opt.expiration_timestamp / 1000
        let dte_days := (exp_ts - now_ts) / 86400
        if cfg.dte_min ≤ dte_days ∧ dte_days ≤ cfg.dte_max then
          let premium_btc := mid_price opt.bid opt.ask
          if premium_btc ≤ 0 then none
          else
            some { instrument_name := opt.instrument_name
                   strike := opt.strike
                   expiration_ts := exp_ts
                   delta := delta
                   mark_iv := mark_iv
                   bid := opt.bid
                   ask := opt.ask
                   dte_days := dte_days
                   premium_btc := premium_btc
                   annualized_yield := premium_btc * 365 / max dte_days (1 / 1000000)
                   safety_margin := (spot_price - opt.strike) / spot_price
                   vrp := mark_iv - realized_vol_24h }
        else none
      else none
    | _, _ => none
  else none

/-- `OpportunityScanner.scan`: the surviving candidates in input order. -/
def scan (cfg : ScannerConfig) (spot_price realized_vol_24h now_ts : ℚ)
    (options : List OptionQuote) : List OptionCandidate :=
  options.filterMap (scanStep cfg spot_price realized_vol_24h now_ts)

/-- The retention condition of the claim, stated over a raw quote: put-type,
delta and mark implied vol present, `|delta|` in the band, days-to-expiry in
the window, and positive mid price. -/
def specKeep (cfg : ScannerConfig) (now_ts : ℚ) (q : OptionQuote) : Prop :=
  q.option_type = "put" ∧ q.delta.isSome ∧ q.mark_iv.isSome ∧
  cfg.delta_min ≤ |q.delta.getD 0| ∧ |q.delta.getD 0| ≤ cfg.delta_max ∧
  cfg.dte_min ≤ (q.expiration_timestamp / 1000 - now_ts) / 86400 ∧
  (q.expiration_timestamp / 1000 - now_ts) / 86400 ≤ cfg.dte_max ∧
  0 < mid_price q.bid q.ask

/-- A put quote 20 days from epoch-time `0` with the given delta, mark IV
`0.6`, bid `0.012`, ask `0.014`. -/
def samplePut (delta : ℚ) : OptionQuote :=
  { instrument_name := "BTC-PUT", option_type := "put", delta := some delta
    mark_iv := some (6 / 10), expiration_timestamp := 20 * 86400 * 1000
    bid := 12 / 1000, ask := 14 / 1000, strike := 50000 }

end VolPulse

namespace VolPulse

/-- **C5.** `OpportunityScanner.scan` keeps exactly the quotes that are
put-type, have both delta and mark implied vol present, have `|delta|` within
the configured band and days-to-expiry within the configured window, and
whose mid price (bid/ask average when both positive, else the larger) is
positive; with the default band `[0.15, 0.20]` a put with delta `−0.10` is
rejected and one with delta `−0.18` is accepted, and bid `0.012` / ask
`0.014` give mid premium `0.013`. -/
theorem scan_keeps_exactly (cfg : ScannerConfig) (spot rv now : ℚ)
    (q : OptionQuote) (opts : List OptionQuote) :
    ((scanStep cfg spot rv now q).isSome ↔ specKeep cfg now q) ∧
    scan cfg spot rv now opts =
      opts.filterMap (scanStep cfg spot rv now) ∧
    scanStep defaultScannerConfig spot rv 0 (samplePut (-(1/10))) = none ∧
    (scanStep defaultScannerConfig spot rv 0
      (samplePut (-(18/100)))).isSome = true ∧
    mid_price (12/1000) (14/1000) = 13/1000 := by
  refine ⟨?_, rfl, ?_, ?_, ?_⟩
  · by_cases ht : q.option_type = "put"
    · rcases hq : q.delta with _ | δ
      · simp [scanStep, specKeep, ht, hq]
      · rcases hm : q.mark_iv with _ | iv
        · simp [scanStep, specKeep, ht, hq, hm]
        · simp only [scanStep, specKeep, ht, hq, hm, if_true, Option.isSome_some,
            Option.getD_some]
          split_ifs with h1 h2 h3 <;> simp_all
    · simp [scanStep, specKeep, ht]
  · norm_num [scanStep, defaultScannerConfig, samplePut, abs_of_nonpos]
  · norm_num [scanStep, defaultScannerConfig, samplePut, abs_of_nonpos,
      mid_price]
  · norm_num [mid_price]

end VolPulse

namespace VolPulse

/-! ## opportunity_scanner.py: `analyze_skew` -/

/-- `mean = sum(skew_history) / len(skew_history)`. -/
def skewMean (h : List ℚ) : ℚ := h.sum / (h.length : ℚ)

/-- `var = sum((x - mean) ** 2 for x in skew_history) / max(len - 1, 1)`
(Bessel-corrected sample variance; the `max(..., 1)` guards short lists, and
truncated `ℕ` subtraction agrees with Python here since
`max(-1, 1) = max(0, 1) = 1`). -/
def skewVar (h : List ℚ) : ℚ :=
  (h.map (fun x => (x - skewMean h) ^ 2)).sum / ((max (h.length - 1) 1 : ℕ) : ℚ)

/-- Decidable form of the code's `skew_z >= 2.0` test, where
`skew_z = (skew - mean) / var ** 0.5`: with `var > 0` this holds exactly when
`d = skew - mean` is non-negative and `d² ≥ 4·var` (see `zGeTwoB_iff`). -/
def zGeTwoB (d v : ℚ) : Bool :=
  decide (0 ≤ d) && decide (4 * v ≤ d ^ 2)

/-- With positive variance, the decidable test coincides with the code's
real-valued `(skew - mean) / sqrt var ≥ 2.0`. -/
theorem zGeTwoB_iff (d v : ℚ) (hv : 0 < v) :
    zGeTwoB d v = true ↔ (2 : ℝ) ≤ (d : ℝ) / Real.sqrt (v : ℝ) := by
  have hvR : (0 : ℝ) < (v : ℝ) := by exact_mod_cast hv
  have hs : 0 < Real.sqrt (v : ℝ) := Real.sqrt_pos.mpr hvR
  rw [le_div_iff₀ hs]
  unfold zGeTwoB
  rw [Bool.and_eq_true, decide_eq_true_eq, decide_eq_true_eq]
  constructor
  · rintro ⟨hd, hsq⟩
    have hdR : (0 : ℝ) ≤ (d : ℝ) := by exact_mod_cast hd
    have hsqR : 4 * (v : ℝ) ≤ (d : ℝ) ^ 2 := by exact_mod_cast hsq
    have h1 : Real.sqrt (4 * (v : ℝ)) ≤ Real.sqrt ((d : ℝ) ^ 2) :=
      Real.sqrt_le_sqrt hsqR
    rw [Real.sqrt_sq hdR, Real.sqrt_mul (by norm_num) _] at h1
    have h4 : Real.sqrt (4 : ℝ) = 2 := by
      rw [show (4 : ℝ) = 2 ^ 2 by norm_num, Real.sqrt_sq (by norm_num)]
    rw [h4] at h1
    linarith
  · intro h
    have hdR : (0 : ℝ) ≤ (d : ℝ) := by nlinarith
    have hsq2 : (2 * Real.sqrt (v : ℝ)) ^ 2 ≤ (d : ℝ) ^ 2 := by nlinarith
    rw [mul_pow, Real.sq_sqrt hvR.le] at hsq2
    have h4v : 4 * (v : ℝ) ≤ (d : ℝ) ^ 2 := by nlinarith
    exact ⟨by exact_mod_cast hdR, by exact_mod_cast h4v⟩

/-- Report produced by the tail of `OpportunityScanner.analyze_skew` once
`_find_same_expiry_iv` has returned both IVs: `z_computed` records whether
the `if std > 0` branch set `skew_z` (the code leaves it `None` otherwise). -/
structure SkewCore where
  skew : ℚ
  signal : String
  z_computed : Bool
  pricing_error : Bool
deriving DecidableEq

/-- Tail of `analyze_skew` given `put_iv` and `call_iv`: the skew, its
signal label, and the ≥5-history z-score / pricing-error logic.  The code's
`if std > 0` (with `std = var ** 0.5` and `var ≥ 0`) is the test `0 < var`;
`skew_z >= 2.0` is `zGeTwoB` (see `zGeTwoB_iff`). -/
def analyzeSkewCore (put_iv call_iv : ℚ) (skew_history : List ℚ) : SkewCore :=
  let skew := put_iv - call_iv
  let signal :=
    if skew > 15 / 100 then "bearish_put_premium"
    else if skew < 0 then "fomo_calls_rich"
    else "neutral"
  if 5 ≤ skew_history.length then
    let mean := skewMean skew_history
    let var := skewVar skew_history
    if 0 < var then
      { skew := skew, signal := signal, z_computed := true
        pricing_error := zGeTwoB (skew - mean) var }
    else
      { skew := skew, signal := signal, z_computed := false
        pricing_error := false }
  else
    { skew := skew, signal := signal, z_computed := false
      pricing_error := false }

end VolPulse

namespace VolPulse

/-- **C6 (amended).** When `analyze_skew` obtains a skew value and the
skew history has at least 5 prior values *with positive Bessel-corrected
sample variance*, a z-score is computed from the history's mean and sample
standard deviation and `pricing_error` is flagged exactly when
`z = (skew - mean) / sqrt var ≥ 2.0`; for history
`[0.05, 0.06, 0.04, 0.05, 0.07]` and new skew `0.20` the flag is set.
(The original claim fails only for zero-variance histories, where the code
computes no z-score: see `analyze_skew_constant_history_no_z`.) -/
theorem analyze_skew_z (put_iv call_iv : ℚ) (hist : List ℚ)
    (hlen : 5 ≤ hist.length) (hvar : 0 < skewVar hist) :
    (analyzeSkewCore put_iv call_iv hist).z_computed = true ∧
    ((analyzeSkewCore put_iv call_iv hist).pricing_error = true ↔
      (2 : ℝ) ≤ ((put_iv - call_iv - skewMean hist : ℚ) : ℝ) /
        Real.sqrt ((skewVar hist : ℚ) : ℝ)) ∧
    (analyzeSkewCore (2/10) 0
      [5/100, 6/100, 4/100, 5/100, 7/100]).pricing_error = true := by
  refine ⟨?_, ?_, ?_⟩
  · simp [analyzeSkewCore, hlen, hvar]
  · simp only [analyzeSkewCore, if_pos hlen, if_pos hvar]
    exact zGeTwoB_iff _ _ hvar
  · norm_num [analyzeSkewCore, skewMean, skewVar, zGeTwoB]

/-- Counterexample to C6 as stated: the constant history `[1,1,1,1,1]` has 5
prior values, yet the code computes no z-score (`skew_z` stays `None`)
because the sample standard deviation is `0`. -/
theorem analyze_skew_constant_history_no_z :
    5 ≤ ([1, 1, 1, 1, 1] : List ℚ).length ∧
    (analyzeSkewCore (2/10) 0 [1, 1, 1, 1, 1]).z_computed = false ∧
    (analyzeSkewCore (2/10) 0 [1, 1, 1, 1, 1]).pricing_error = false := by
  refine ⟨by norm_num, ?_, ?_⟩ <;>
    norm_num [analyzeSkewCore, skewMean, skewVar, zGeTwoB]

/-- Witness for C6 (amended) at skew `0.20` over history
`[0.05, 0.06, 0.04, 0.05, 0.07]`. -/
theorem analyze_skew_z_witness :
    (analyzeSkewCore (2/10) 0
      [5/100, 6/100, 4/100, 5/100, 7/100]).pricing_error = true :=
  (analyze_skew_z (2/10) 0 [5/100, 6/100, 4/100, 5/100, 7/100]
    (by norm_num)
    (by norm_num [skewVar, skewMean])).2.2

end VolPulse

namespace VolPulse

/-! ## deribit_client.py: `_get_with_retry` and `_fetch_tickers` -/

/-- The outcome of one underlying `_get` attempt, as the `try/except` ladder
in `_get_with_retry` distinguishes them: a successful payload (abstracted to
a number), an `aiohttp.ClientError` carrying an optional HTTP `status`
attribute, an `asyncio.TimeoutError` (also covering exceptions that are both
a client error and a timeout, which the code retries regardless of status),
or any other exception (the bare `except Exception` arm). -/
inductive Outcome where
  | ok (result : ℕ)
  | clientError (status : Option ℕ)
  | timeout
  | otherError
deriving DecidableEq

/-- How `_get_with_retry` terminates: returning a payload, raising a
client error, or returning the empty dict after the loop. -/
inductive RetryOutcome where
  | success (result : ℕ)
  | raised (status : Option ℕ)
  | empty
deriving DecidableEq

/-- One complete run of `_get_with_retry`: how it ended, how many `_get`
attempts were made, and the `asyncio.sleep` delays in order (seconds). -/
structure RetryRun where
  outcome : RetryOutcome
  attemptsMade : ℕ
  slept : List ℚ
deriving DecidableEq

/-- The `for _ in range(3)` loop of `_get_with_retry`, with the remaining
iteration count as fuel and the current backoff `delay` threaded through:
`ok` returns; a client error with status ≠ 429 raises; a 429, a timeout or
any other exception sleeps `delay`, doubles it and continues; when the fuel
runs out the function returns the empty dict. -/
def retryAux (attempts : ℕ → Outcome) (i fuel : ℕ) (delay : ℚ)
    (made : ℕ) (slept : List ℚ) : RetryRun :=
  match fuel with
  | 0 => ⟨.empty, made, slept⟩
  | fuel + 1 =>
    match attempts i with
    | .ok r => ⟨.success r, made + 1, slept⟩
    | .clientError status =>
        if status = some 429 then
          retryAux attempts (i + 1) fuel (delay * 2) (made + 1) (slept ++ [delay])
        else ⟨.raised status, made + 1, slept⟩
    | .timeout =>
        retryAux attempts (i + 1) fuel (delay * 2) (made + 1) (slept ++ [delay])
    | .otherError =>
        retryAux attempts (i + 1) fuel (delay * 2) (made + 1) (slept ++ [delay])

/-- `_get_with_retry`: three attempts, starting delay `0.25`. -/
def getWithRetry (attempts : ℕ → Outcome) : RetryRun :=
  retryAux attempts 0 3 (1 / 4) 0 []

/-- Whether an attempt outcome stops the loop, and if so how: `ok` and
non-429 client errors stop it, everything else is retried. -/
def step1 (o : Outcome) : Option RetryOutcome :=
  match o with
  | .ok r => some (.success r)
  | .clientError s => if s = some 429 then none else some (.raised s)
  | .timeout => none
  | .otherError => none

/-- Closed form of a `_get_with_retry` run in terms of the first three
attempt outcomes. -/
def run3 (o0 o1 o2 : Outcome) : RetryRun :=
  match step1 o0 with
  | some r => ⟨r, 1, []⟩
  | none =>
    match step1 o1 with
    | some r => ⟨r, 2, [1/4]⟩
    | none =>
      match step1 o2 with
      | some r => ⟨r, 3, [1/4, 1/2]⟩
      | none => ⟨.empty, 3, [1/4, 1/2, 1]⟩

theorem retryAux_zero (a : ℕ → Outcome) (i : ℕ) (delay : ℚ) (made : ℕ)
    (slept : List ℚ) : retryAux a i 0 delay made slept = ⟨.empty, made, slept⟩ :=
  rfl

theorem retryAux_succ (a : ℕ → Outcome) (i fuel : ℕ) (delay : ℚ) (made : ℕ)
    (slept : List ℚ) :
    retryAux a i (fuel + 1) delay made slept =
      match a i with
      | .ok r => ⟨.success r, made + 1, slept⟩
      | .clientError status =>
          if status = some 429 then
            retryAux a (i + 1) fuel (delay * 2) (made + 1) (slept ++ [delay])
          else ⟨.raised status, made + 1, slept⟩
      | .timeout =>
          retryAux a (i + 1) fuel (delay * 2) (made + 1) (slept ++ [delay])
      | .otherError =>
          retryAux a (i + 1) fuel (delay * 2) (made + 1) (slept ++ [delay]) :=
  rfl

/-- The tail of the loop once the first attempt has been retried: one
attempt with fuel `1` left after this one. -/
theorem retryAux_two_run (a : ℕ → Outcome) :
    retryAux a 1 2 (1/2) 1 [1/4] =
      match step1 (a 1) with
      | some r => ⟨r, 2, [1/4]⟩
      | none =>
        match step1 (a 2) with
        | some r => ⟨r, 3, [1/4, 1/2]⟩
        | none => ⟨.empty, 3, [1/4, 1/2, 1]⟩ := by
  have e2 : retryAux a 1 2 (1/2) 1 [1/4] = retryAux a 1 (1 + 1) (1/2) 1 [1/4] := rfl
  rw [e2, retryAux_succ]
  have harg : ((1 : ℚ)/2) * 2 = 1 := by norm_num
  rcases h1 : a 1 with r1 | s1 | _ | _
  · simp [step1]
  · by_cases hs1 : s1 = some 429
    · subst hs1
      simp only [step1, if_pos rfl, harg]
      have e1 : retryAux a (1 + 1) 1 1 (1 + 1) ([1/4] ++ [1/2]) =
          retryAux a 2 (0 + 1) 1 2 [1/4, 1/2] := rfl
      rw [e1, retryAux_succ]
      rcases h2 : a 2 with r2 | s2 | _ | _
      · simp [step1]
      · by_cases hs2 : s2 = some 429
        · subst hs2
          simp [step1, retryAux_zero]
        · simp [step1, hs2]
      · simp [step1, retryAux_zero]
      · simp [step1, retryAux_zero]
    · simp [step1, hs1]
  · simp only [step1, harg]
    have e1 : retryAux a (1 + 1) 1 1 (1 + 1) ([1/4] ++ [1/2]) =
        retryAux a 2 (0 + 1) 1 2 [1/4, 1/2] := rfl
    rw [e1, retryAux_succ]
    rcases h2 : a 2 with r2 | s2 | _ | _
    · simp [step1]
    · by_cases hs2 : s2 = some 429
      · subst hs2
        simp [step1, retryAux_zero]
      · simp [step1, hs2]
    · simp [step1, retryAux_zero]
    · simp [step1, retryAux_zero]
  · simp only [step1, harg]
    have e1 : retryAux a (1 + 1) 1 1 (1 + 1) ([1/4] ++ [1/2]) =
        retryAux a 2 (0 + 1) 1 2 [1/4, 1/2] := rfl
    rw [e1, retryAux_succ]
    rcases h2 : a 2 with r2 | s2 | _ | _
    · simp [step1]
    · by_cases hs2 : s2 = some 429
      · subst hs2
        simp [step1, retryAux_zero]
      · simp [step1, hs2]
    · simp [step1, retryAux_zero]
    · simp [step1, retryAux_zero]

/-- A `_get_with_retry` run is determined by the first three attempt
outcomes, in the closed form `run3`. -/
theorem getWithRetry_eq_run3 (a : ℕ → Outcome) :
    getWithRetry a = run3 (a 0) (a 1) (a 2) := by
  have e3 : getWithRetry a = retryAux a 0 (2 + 1) (1/4) 0 [] := rfl
  rw [e3, retryAux_succ]
  have harg : ((1 : ℚ)/4) * 2 = 1/2 := by norm_num
  rcases h0 : a 0 with r0 | s0 | _ | _
  · simp [run3, step1]
  · by_cases hs0 : s0 = some 429
    · subst hs0
      simp only [if_pos rfl, harg]
      have e : retryAux a (0 + 1) 2 (1/2) (0 + 1) ([] ++ [1/4]) =
          retryAux a 1 2 (1/2) 1 [1/4] := rfl
      rw [e, retryAux_two_run]
      simp [run3, step1]
    · simp [run3, step1, hs0]
  · simp only [harg]
    have e : retryAux a (0 + 1) 2 (1/2) (0 + 1) ([] ++ [1/4]) =
        retryAux a 1 2 (1/2) 1 [1/4] := rfl
    rw [e, retryAux_two_run]
    simp [run3, step1]
  · simp only [harg]
    have e : retryAux a (0 + 1) 2 (1/2) (0 + 1) ([] ++ [1/4]) =
        retryAux a 1 2 (1/2) 1 [1/4] := rfl
    rw [e, retryAux_two_run]
    simp [run3, step1]

end VolPulse

namespace VolPulse

/-- Counterexample to C2 as stated: an exception that is neither a client
error nor a timeout (the bare `except Exception` arm) is *retried* and
finally swallowed into the empty result — three attempts are made and
nothing propagates — whereas the claim says any error other than a timeout
or a 429 propagates to the caller immediately. -/
theorem get_with_retry_other_error_swallowed :
    getWithRetry (fun _ => Outcome.otherError) =
      ⟨RetryOutcome.empty, 3, [1/4, 1/2, 1]⟩ := by
  rw [getWithRetry_eq_run3]
  rfl

/-- **C2 (amended).** `_get_with_retry` makes at most 3 attempts, with
backoff delays `0.25 s` then `0.5 s` before the second and third attempts
(plus one final doubled sleep when the loop exhausts); a transient timeout,
an HTTP 429 client error, *or any exception that is neither a client error
nor a timeout* triggers a retry; a client error whose status is not 429
is not retried and propagates immediately; and when all three attempts fail
with retryable errors the call returns an empty result rather than
raising. -/
theorem get_with_retry_policy (a : ℕ → Outcome) :
    (getWithRetry a).attemptsMade ≤ 3 ∧
    ((getWithRetry a).slept = [] ∨ (getWithRetry a).slept = [1/4] ∨
      (getWithRetry a).slept = [1/4, 1/2] ∨
      (getWithRetry a).slept = [1/4, 1/2, 1]) ∧
    (step1 (a 0) = none → 2 ≤ (getWithRetry a).attemptsMade) ∧
    (∀ s, a 0 = Outcome.clientError s → s ≠ some 429 →
      getWithRetry a = ⟨RetryOutcome.raised s, 1, []⟩) ∧
    ((∀ i, i < 3 → step1 (a i) = none) →
      getWithRetry a = ⟨RetryOutcome.empty, 3, [1/4, 1/2, 1]⟩) := by
  rw [getWithRetry_eq_run3]
  refine ⟨?_, ?_, ?_, ?_, ?_⟩
  · unfold run3
    rcases step1 (a 0) with _ | r0
    · rcases step1 (a 1) with _ | r1
      · rcases step1 (a 2) with _ | r2 <;> simp
      · simp
    · simp
  · unfold run3
    rcases step1 (a 0) with _ | r0
    · rcases step1 (a 1) with _ | r1
      · rcases step1 (a 2) with _ | r2 <;> simp
      · simp
    · simp
  · intro h0
    unfold run3
    rw [h0]
    rcases step1 (a 1) with _ | r1
    · rcases step1 (a 2) with _ | r2 <;> simp
    · simp
  · intro s ha hs
    unfold run3
    rw [ha]
    simp [step1, hs]
  · intro hall
    unfold run3
    rw [hall 0 (by norm_num), hall 1 (by norm_num), hall 2 (by norm_num)]

/-- Witness for C2 (amended): all three attempts time out — the call makes
all 3 attempts, sleeps `0.25`, `0.5`, `1.0`, and returns empty. -/
theorem get_with_retry_policy_witness :
    getWithRetry (fun _ => Outcome.timeout) =
      ⟨RetryOutcome.empty, 3, [1/4, 1/2, 1]⟩ :=
  (get_with_retry_policy (fun _ => Outcome.timeout)).2.2.2.2
    (fun i _ => rfl)

end VolPulse

namespace VolPulse

/-- `_fetch_tickers`: each instrument name's quote is fetched through
`_get_with_retry`; an empty result (`if not result: return`) is skipped, a
successful result is appended (the payload is abstracted to the number the
retry layer returned), and an exception raised by any single fetch
propagates through `asyncio.gather` and fails the whole call.  The Python
list is in completion order; the claims settled here do not depend on the
order, so names are processed in list order. -/
def fetchTickers (res : String → RetryOutcome) :
    List String → Except (Option ℕ) (List ℕ)
  | [] => .ok []
  | n :: rest =>
    match res n with
    | .raised s => .error s
    | .empty => fetchTickers res rest
    | .success r =>
      match fetchTickers res rest with
      | .error s => .error s
      | .ok l => .ok (r :: l)

/-- Counterexample to C3 as stated: a single instrument whose ticker fetch
fails with a non-429 client error (here HTTP 500 on the first attempt) is
not dropped silently — `_get_with_retry` raises and the exception fails the
whole `option_chain` call. -/
theorem fetch_tickers_single_failure_fails_call :
    fetchTickers
      (fun _ => (getWithRetry (fun _ => Outcome.clientError (some 500))).outcome)
      ["BTC-26DEC25-50000-P"] = Except.error (some 500) := by
  have h : (getWithRetry (fun _ => Outcome.clientError (some 500))).outcome =
      RetryOutcome.raised (some 500) := by
    rw [getWithRetry_eq_run3]
    rfl
  simp [fetchTickers, h]

/-- **C3 (amended).** A per-instrument ticker fetch that degrades to the
empty result (retries exhausted on timeouts / 429s / other swallowed
exceptions) is dropped silently: the instrument is simply omitted from the
returned quote list and the call succeeds with the remaining quotes.  But a
fetch that raises (a client error with status ≠ 429) is *not* isolated: it
fails the whole `option_chain` call. -/
theorem fetch_tickers_degrade (a : String → ℕ → Outcome) (names : List String)
    (h : ∀ n ∈ names, ∀ s, (getWithRetry (a n)).outcome ≠ RetryOutcome.raised s) :
    fetchTickers (fun n => (getWithRetry (a n)).outcome) names =
      Except.ok (names.filterMap (fun n =>
        match (getWithRetry (a n)).outcome with
        | .success r => some r
        | _ => none)) := by
  induction names with
  | nil => rfl
  | cons n rest ih =>
    have hn := h n (List.mem_cons_self _ _)
    have hrest : ∀ m ∈ rest, ∀ s,
        (getWithRetry (a m)).outcome ≠ RetryOutcome.raised s :=
      fun m hm => h m (List.mem_cons_of_mem _ hm)
    rcases ho : (getWithRetry (a n)).outcome with r | s | _
    · simp [fetchTickers, ho, ih hrest, List.filterMap_cons]
    · exact absurd ho (hn s)
    · simp [fetchTickers, ho, ih hrest, List.filterMap_cons]

/-- Witness for C3 (amended): two instruments, one returning a payload and
one whose retries are exhausted by timeouts — the exhausted one is silently
omitted and the call succeeds. -/
theorem fetch_tickers_degrade_witness :
    fetchTickers
      (fun n => (getWithRetry (fun _ =>
        if n = "GOOD" then Outcome.ok 7 else Outcome.timeout)).outcome)
      ["GOOD", "BAD"] = Except.ok [7] :=
  fetch_tickers_degrade
    (fun n _ => if n = "GOOD" then Outcome.ok 7 else Outcome.timeout)
    ["GOOD", "BAD"]
    (by
      intro n hn s
      rcases List.mem_cons.mp hn with rfl | hn'
      · rw [getWithRetry_eq_run3]
        simp [run3, step1]
      · rcases List.mem_cons.mp hn' with rfl | hn''
        · rw [getWithRetry_eq_run3]
          simp [run3, step1]
        · cases hn'')

end VolPulse
